import Mathlib

/-!
Verification of the mhcflurry data-preparation core against its
natural-language specification.

The development shallowly embeds the two source files:
  * `experiments/training_helpers.py` — affinity transform, batch
    encoding, F1 and prediction scoring;
  * `mhcflurry/dataset.py` — `SingleAlleleDataset` and
    `MultipleAlleleDataset`.
Python floats are idealised as real numbers (`ℝ`) where logarithms and
powers are involved, and as rationals (`ℚ`) where only field arithmetic
occurs.  Python exceptions are modelled with `Except PyError`.
-/

/-- The exception classes raised by the embedded code. -/
inductive PyError : Type
  | attributeError
  | valueError
  | keyError
  | nameError
  deriving DecidableEq, Repr

/-- Lower-case/upper-case pairs for the 26 ASCII letters. -/
def lowerUpperTable : List (Char × Char) :=
  [('a', 'A'), ('b', 'B'), ('c', 'C'), ('d', 'D'), ('e', 'E'),
   ('f', 'F'), ('g', 'G'), ('h', 'H'), ('i', 'I'), ('j', 'J'),
   ('k', 'K'), ('l', 'L'), ('m', 'M'), ('n', 'N'), ('o', 'O'),
   ('p', 'P'), ('q', 'Q'), ('r', 'R'), ('s', 'S'), ('t', 'T'),
   ('u', 'U'), ('v', 'V'), ('w', 'W'), ('x', 'X'), ('y', 'Y'),
   ('z', 'Z')]

/-- Uppercases one ASCII letter; every other character is unchanged.
Helper for the modelled `normalize_allele_name`. -/
def canonChar (c : Char) : Char :=
  ((lowerUpperTable.find? (fun e => e.1 == c)).map Prod.snd).getD c

/-- Modelled from the spec: `normalize_allele_name` is imported from
`mhcflurry/common.py`, which is not under src/.  The spec treats it as a
thin string utility producing the canonical allele spelling ("allele name
is always stored in normalized canonical form"), e.g. `"hla-a*02:01"` and
`"HLA-A0201"` both denote the allele `"HLA-A0201"`: separators `*` and `:`
are dropped and letters are uppercased. -/
def normalize_allele_name (s : String) : String :=
  String.mk ((s.data.filter (fun c => !(c == '*' || c == ':'))).map canonChar)

theorem upper_not_in_table : ∀ e ∈ lowerUpperTable,
    lowerUpperTable.find? (fun x => x.1 == e.2) = none := by decide

theorem upper_not_sep : ∀ e ∈ lowerUpperTable,
    (!(e.2 == '*' || e.2 == ':')) = true := by decide

theorem canonChar_canonChar (c : Char) : canonChar (canonChar c) = canonChar c := by
  unfold canonChar
  cases h : lowerUpperTable.find? (fun e => e.1 == c) with
  | none => simp [h]
  | some e =>
    have he := List.mem_of_find?_eq_some h
    simp [h, upper_not_in_table e he]

theorem canonChar_not_sep (c : Char) (h : (!(c == '*' || c == ':')) = true) :
    (!(canonChar c == '*' || canonChar c == ':')) = true := by
  unfold canonChar
  cases hf : lowerUpperTable.find? (fun e => e.1 == c) with
  | none => simpa using h
  | some e =>
    have he := List.mem_of_find?_eq_some hf
    simpa using upper_not_sep e he

theorem normalize_allele_name_idem (s : String) :
    normalize_allele_name (normalize_allele_name s) = normalize_allele_name s := by
  unfold normalize_allele_name
  congr 1
  rw [List.filter_eq_self.2, List.map_map]
  · have hcc : canonChar ∘ canonChar = canonChar := funext canonChar_canonChar
    rw [hcc]
  · intro c hc
    rcases List.mem_map.1 hc with ⟨d, hd, rfl⟩
    exact canonChar_not_sep d (List.mem_filter.1 hd).2

/-! ### `f1_score` (experiments/training_helpers.py, lines 85–94)

The numpy boolean arrays become lists of `Bool`; elementwise `&` and
`.sum()` become a filtered count of the zipped lists; float division
becomes exact division in `ℚ`. -/

/-- Number of true positives: `(true_label & label_pred).sum()`. -/
def countTP (true_label label_pred : List Bool) : ℕ :=
  ((true_label.zip label_pred).filter (fun e => e.1 && e.2)).length

/-- Number of false positives: `((~true_label) & label_pred).sum()`. -/
def countFP (true_label label_pred : List Bool) : ℕ :=
  ((true_label.zip label_pred).filter (fun e => (!e.1) && e.2)).length

/-- Number of false negatives: `(true_label & (~label_pred)).sum()`. -/
def countFN (true_label label_pred : List Bool) : ℕ :=
  ((true_label.zip label_pred).filter (fun e => e.1 && (!e.2))).length

/-- `f1_score` from experiments/training_helpers.py, lines 85–94. -/
def f1_score (true_label label_pred : List Bool) : ℚ :=
  let tp : ℚ := countTP true_label label_pred
  let fp : ℚ := countFP true_label label_pred
  let fnc : ℚ := countFN true_label label_pred
  let recallV : ℚ := if tp + fnc > 0 then tp / (tp + fnc) else 0
  let precisionV : ℚ := if tp + fp > 0 then tp / (tp + fp) else 0
  if precisionV + recallV > 0 then (2 * precisionV * recallV) / (precisionV + recallV)
  else 0

/-- C4: `f1_score` returns `2·P·R/(P+R)` with zero-denominator components
defined as 0 and F1 defined as 0 when `P + R = 0`; on truth
`[true, true, false, false]` against predictions
`[true, false, false, false]` the counts are `tp = 1, fp = 0, fn = 1`,
recall `1/2`, precision `1`, and F1 `= 2/3 ≈ 0.667`. -/
theorem f1_score_spec :
    (∀ t p : List Bool,
      f1_score t p =
        (let tp : ℚ := countTP t p
         let fp : ℚ := countFP t p
         let fnc : ℚ := countFN t p
         let recallV : ℚ := if tp + fnc > 0 then tp / (tp + fnc) else 0
         let precisionV : ℚ := if tp + fp > 0 then tp / (tp + fp) else 0
         if precisionV + recallV > 0 then (2 * precisionV * recallV) / (precisionV + recallV)
         else 0))
    ∧ countTP [true, true, false, false] [true, false, false, false] = 1
    ∧ countFP [true, true, false, false] [true, false, false, false] = 0
    ∧ countFN [true, true, false, false] [true, false, false, false] = 1
    ∧ (if ((1 : ℚ) + 1 : ℚ) > 0 then (1 : ℚ) / (1 + 1) else 0) = 1 / 2
    ∧ f1_score [true, true, false, false] [true, false, false, false] = 2 / 3 := by
  refine ⟨fun t p => rfl, by decide, by decide, by decide, by norm_num, ?_⟩
  simp only [f1_score, countTP, countFP, countFN]
  norm_num

/-! ### The affinity transform (experiments/training_helpers.py, lines 25–47)

`encode_allele_dataset` takes a named tuple with fields `X` (index-encoded
k-mers) and `ic50`, optionally expands `X` to a one-hot encoding, and maps
each IC50 value `v` to the regression target
`1 - min(1, log v / log max_ic50)`. -/

/-- The `AlleleData` named tuple, restricted to the two fields
`encode_allele_dataset` reads: `X` and `ic50`. -/
structure AlleleData where
  X : List (List ℕ)
  ic50 : List ℝ

/-- The feature matrix is either index-encoded (integers) or one-hot
encoded (0/1 floats), depending on `binary_encoding`. -/
def XEnc : Type := List (List ℕ) ⊕ List (List ℚ)

/-- Modelled from the spec: `indices_to_hotshot_encoding` is imported from
`mhcflurry/data_helpers.py`, which is not under src/.  Spec §4.2: each
amino-acid index is expanded to an `n_indices`-length indicator vector and
the row is flattened to 2-D form. -/
def indices_to_hotshot_encoding (X : List (List ℕ)) (n_indices : ℕ) : List (List ℚ) :=
  X.map (fun row =>
    (row.map (fun i => (List.range n_indices).map (fun j => if j = i then (1 : ℚ) else 0))).flatten)

/-- The Y computation of `encode_allele_dataset` (line 46):
`1.0 - np.minimum(1.0, np.log(v) / np.log(max_ic50))`. -/
noncomputable def regressionTarget (max_ic50 v : ℝ) : ℝ :=
  1 - min 1 (Real.log v / Real.log max_ic50)

/-- `encode_allele_dataset` from experiments/training_helpers.py,
lines 25–47, returning `(X, Y_log_ic50, ic50)`. -/
noncomputable def encode_allele_dataset (allele_dataset : AlleleData) (max_ic50 : ℝ)
    (binary_encoding : Bool) : XEnc × List ℝ × List ℝ :=
  let X_allele : XEnc :=
    if binary_encoding then Sum.inr (indices_to_hotshot_encoding allele_dataset.X 20)
    else Sum.inl allele_dataset.X
  let Y_allele := allele_dataset.ic50.map (regressionTarget max_ic50)
  (X_allele, Y_allele, allele_dataset.ic50)

/-- C1 (counterexample): the claim "y lies in [0, 1] for every v > 0" fails.
At `v = 1/2` (an IC50 of half a nanomolar, which is > 0) with
`max_ic50 = 50000 > 1`, the Y value produced by `encode_allele_dataset`
is `1 - log(1/2)/log(50000) > 1`, because `log(1/2) < 0` and the code only
caps the ratio from above. -/
theorem Y_transform_exceeds_one_cex :
    (encode_allele_dataset ⟨[], [1 / 2]⟩ 50000 false).2.1 = [regressionTarget 50000 (1 / 2)]
    ∧ 1 < regressionTarget 50000 (1 / 2) := by
  constructor
  · rfl
  · unfold regressionTarget
    have hlog : Real.log (1 / 2) < 0 := Real.log_neg (by norm_num) (by norm_num)
    have hmax : 0 < Real.log 50000 := Real.log_pos (by norm_num)
    have hr : Real.log (1 / 2) / Real.log 50000 < 0 := div_neg_of_neg_of_pos hlog hmax
    rw [min_eq_right (le_of_lt (hr.trans one_pos))]
    linarith

/-- C1 (amended): for every IC50 value `v > 0` and ceiling `max_ic50 > 1`,
the Y computation in `encode_allele_dataset` returns exactly
`y = 1 - min(1, log v / log max_ic50)` for each entry; `y` is always ≥ 0,
and it lies in `[0, 1]` whenever `v ≥ 1` (for `0 < v < 1` it exceeds 1). -/
theorem Y_transform_formula_and_range (ds : AlleleData) (max_ic50 : ℝ) (be : Bool)
    (v : ℝ) (hv : 0 < v) (hmax : 1 < max_ic50) :
    (encode_allele_dataset ds max_ic50 be).2.1
      = ds.ic50.map (fun w => 1 - min 1 (Real.log w / Real.log max_ic50))
    ∧ 0 ≤ regressionTarget max_ic50 v
    ∧ (1 ≤ v → regressionTarget max_ic50 v ≤ 1) := by
  refine ⟨rfl, ?_, ?_⟩
  · unfold regressionTarget
    have := min_le_left 1 (Real.log v / Real.log max_ic50)
    linarith
  · intro h1
    unfold regressionTarget
    have hlv : 0 ≤ Real.log v := Real.log_nonneg h1
    have hlm : 0 < Real.log max_ic50 := Real.log_pos hmax
    have hmin : 0 ≤ min 1 (Real.log v / Real.log max_ic50) :=
      le_min (by norm_num) (div_nonneg hlv (le_of_lt hlm))
    linarith

/-- Witness for C1's amended theorem at `v = 100`, `max_ic50 = 50000`. -/
theorem Y_transform_formula_and_range_witness :
    (0 : ℝ) < 100 ∧ (1 : ℝ) < 50000 ∧ (1 : ℝ) ≤ 100 ∧
      0 ≤ regressionTarget 50000 100 ∧ regressionTarget 50000 100 ≤ 1 :=
  ⟨by norm_num, by norm_num, by norm_num,
    (Y_transform_formula_and_range ⟨[], [100]⟩ 50000 false 100 (by norm_num) (by norm_num)).2.1,
    (Y_transform_formula_and_range ⟨[], [100]⟩ 50000 false 100 (by norm_num)
      (by norm_num)).2.2 (by norm_num)⟩

/-- The Y-to-IC50 inversion used in `score_predictions` (line 100):
`ic50_pred = max_ic50 ** (1.0 - predicted_log_ic50)`. -/
noncomputable def ic50_pred (max_ic50 predicted_log_ic50 : ℝ) : ℝ :=
  max_ic50 ^ (1 - predicted_log_ic50)

/-- C3: for `0 < v ≤ max_ic50` and `max_ic50 > 1`, applying the affinity
transform and then the inversion `max_ic50 ** (1 - y)` from
`score_predictions` recovers `v` exactly (in the real-number idealisation
of floats). -/
theorem ic50_roundtrip (v max_ic50 : ℝ) (hv : 0 < v) (hle : v ≤ max_ic50)
    (hmax : 1 < max_ic50) :
    ic50_pred max_ic50 (regressionTarget max_ic50 v) = v := by
  unfold ic50_pred regressionTarget
  have hlm : 0 < Real.log max_ic50 := Real.log_pos hmax
  have hratio : Real.log v / Real.log max_ic50 ≤ 1 := by
    rw [div_le_one hlm]
    exact Real.log_le_log hv hle
  rw [show (1 : ℝ) - (1 - min 1 (Real.log v / Real.log max_ic50))
      = min 1 (Real.log v / Real.log max_ic50) by ring]
  rw [min_eq_right hratio]
  rw [Real.rpow_def_of_pos (by linarith : (0 : ℝ) < max_ic50)]
  rw [mul_comm, div_mul_cancel₀ _ (ne_of_gt hlm)]
  exact Real.exp_log hv

/-- Witness for C3 at `v = 100`, `max_ic50 = 50000`. -/
theorem ic50_roundtrip_witness :
    (0 : ℝ) < 100 ∧ (100 : ℝ) ≤ 50000 ∧ (1 : ℝ) < 50000 ∧
      ic50_pred 50000 (regressionTarget 50000 100) = 100 :=
  ⟨by norm_num, by norm_num, by norm_num,
    ic50_roundtrip 100 50000 (by norm_num) (by norm_num) (by norm_num)⟩

/-! ### Python dictionaries as association lists

`dataset.py` and `encode_allele_datasets` both build (ordered) Python
dicts.  A dict is modelled as an association list in insertion order:
assignment replaces the value of an existing key in place and otherwise
appends, exactly as in CPython. -/

/-- Python dict assignment `m[k] = v`. -/
def dictInsert {α : Type} : List (String × α) → String → α → List (String × α)
  | [], k, v => [(k, v)]
  | e :: rest, k, v => if e.1 == k then (k, v) :: rest else e :: dictInsert rest k v

/-- Python dict lookup `m[k]`, as an `Option`. -/
def dictLookup {α : Type} (m : List (String × α)) (k : String) : Option α :=
  (m.find? (fun e => e.1 == k)).map Prod.snd

theorem dictLookup_nil {α : Type} (k : String) :
    dictLookup ([] : List (String × α)) k = none := rfl

theorem dictLookup_cons {α : Type} (e : String × α) (rest : List (String × α)) (k : String) :
    dictLookup (e :: rest) k = if e.1 == k then some e.2 else dictLookup rest k := by
  simp only [dictLookup, List.find?]
  cases h : (e.1 == k) <;> simp [h]

theorem dictLookup_dictInsert {α : Type} (m : List (String × α)) (k k' : String) (v : α) :
    dictLookup (dictInsert m k v) k' = if k = k' then some v else dictLookup m k' := by
  induction m with
  | nil => simp only [dictInsert, dictLookup_cons, dictLookup_nil, beq_iff_eq]
  | cons e rest ih =>
    simp only [dictInsert]
    by_cases h1 : e.1 = k <;> by_cases h2 : k = k' <;>
      simp_all [dictLookup_cons, beq_iff_eq]

theorem keys_dictInsert {α : Type} (m : List (String × α)) (k : String) (v : α) :
    (dictInsert m k v).map Prod.fst =
      if k ∈ m.map Prod.fst then m.map Prod.fst else m.map Prod.fst ++ [k] := by
  induction m with
  | nil => simp [dictInsert]
  | cons e rest ih =>
    simp only [dictInsert]
    by_cases h1 : e.1 = k
    · simp [h1, List.mem_cons]
    · have hne : ¬(e.1 == k) = true := by simp [h1]
      simp only [if_neg hne, List.map_cons, ih]
      by_cases h2 : k ∈ rest.map Prod.fst
      · simp [h2, List.mem_cons]
      · have hk : ¬(k = e.1 ∨ k ∈ rest.map Prod.fst) := by
          rintro (h | h)
          · exact h1 h.symm
          · exact h2 h
        simp only [h2, List.mem_cons, hk, List.cons_append, if_false]
        rw [if_neg (fun h => by
          rcases h with h | h
          · exact h1 (Eq.symm h)
          · exact h)]

/-- First-occurrence deduplication: keeps each element's first occurrence,
in input order.  The keys of a Python dict built by repeated insertion
appear in exactly this order. -/
def firstOccur {α : Type} [DecidableEq α] : List α → List α
  | [] => []
  | a :: rest => a :: (firstOccur rest).filter (fun x => x ≠ a)

theorem mem_firstOccur {α : Type} [DecidableEq α] (l : List α) (x : α) :
    x ∈ firstOccur l ↔ x ∈ l := by
  induction l with
  | nil => simp [firstOccur]
  | cons a rest ih =>
    rw [firstOccur, List.mem_cons, List.mem_cons, List.mem_filter, ih]
    by_cases hx : x = a <;> simp [hx]

theorem nodup_firstOccur {α : Type} [DecidableEq α] (l : List α) :
    (firstOccur l).Nodup := by
  induction l with
  | nil => simp [firstOccur]
  | cons a rest ih =>
    rw [firstOccur]
    refine List.Nodup.cons ?_ (ih.filter _)
    intro hmem
    have := (List.mem_filter.1 hmem).2
    simp at this

theorem firstOccur_sublist {α : Type} [DecidableEq α] (l : List α) :
    List.Sublist (firstOccur l) l := by
  induction l with
  | nil => simp [firstOccur]
  | cons a rest ih =>
    rw [firstOccur]
    exact List.Sublist.cons₂ a ((List.filter_sublist _).trans ih)

theorem filter_firstOccur {α : Type} [DecidableEq α] (l : List α) (p : α → Bool) :
    firstOccur (l.filter p) = (firstOccur l).filter p := by
  induction l with
  | nil => simp [firstOccur]
  | cons a rest ih =>
    by_cases ha : p a
    · rw [List.filter_cons_of_pos ha, firstOccur, firstOccur, ih,
        List.filter_cons_of_pos ha, List.filter_filter, List.filter_filter]
      congr 1
      apply List.filter_congr
      intro x _
      rw [Bool.and_comm]
    · rw [List.filter_cons_of_neg ha, firstOccur, List.filter_cons_of_neg ha, ih,
        List.filter_filter]
      symm
      apply List.filter_congr
      intro x _
      by_cases hpx : p x
      · have hxa : x ≠ a := fun h => ha (h ▸ hpx)
        simp [hpx, hxa]
      · simp [hpx]

theorem foldl_insertNew_eq_firstOccur {α : Type} [DecidableEq α] (l : List α) (acc : List α) :
    l.foldl (fun a x => if x ∈ a then a else a ++ [x]) acc
      = acc ++ firstOccur (l.filter (fun x => x ∉ acc)) := by
  induction l generalizing acc with
  | nil => simp [firstOccur]
  | cons b rest ih =>
    rw [List.foldl_cons]
    by_cases hb : b ∈ acc
    · rw [if_pos hb, ih, List.filter_cons_of_neg (by simp [hb])]
    · rw [if_neg hb, ih, List.filter_cons_of_pos (by simp [hb])]
      rw [firstOccur, List.append_assoc, List.singleton_append]
      congr 1
      rw [← filter_firstOccur, List.filter_filter]
      have harg : List.filter (fun x => decide (x ∉ acc ++ [b])) rest
          = List.filter (fun a => decide (a ≠ b) && decide (a ∉ acc)) rest := by
        apply List.filter_congr
        intro x _
        by_cases hxb : x = b
        · simp [hxb, hb]
        · by_cases hxa : x ∈ acc <;> simp [hxa, hxb]
      rw [harg]

theorem dictLookup_foldl {α β : Type} (key : β → String) (val : β → α) (items : List β)
    (m : List (String × α)) (k : String) :
    dictLookup (items.foldl (fun acc e => dictInsert acc (key e) (val e)) m) k
      = (match ((items.filter (fun e => key e == k)).map val).getLast? with
         | some v => some v
         | none => dictLookup m k) := by
  induction items generalizing m with
  | nil => rfl
  | cons e rest ih =>
    rw [List.foldl_cons, ih]
    by_cases hk : key e = k
    · rw [List.filter_cons_of_pos (by simp [hk])]
      cases h : ((rest.filter (fun e => key e == k)).map val).getLast? with
      | some v => simp [List.getLast?_cons, h]
      | none =>
        have hnil : (rest.filter (fun e => key e == k)).map val = [] :=
          List.getLast?_eq_none_iff.1 h
        simp [hnil, dictLookup_dictInsert, hk]
    · rw [List.filter_cons_of_neg (by simp [hk])]
      cases h : ((rest.filter (fun e => key e == k)).map val).getLast? with
      | some v => simp [h]
      | none => simp [h, dictLookup_dictInsert, hk]

theorem keys_foldl_dictInsert {α β : Type} (key : β → String) (val : β → α) (items : List β)
    (m : List (String × α)) :
    (items.foldl (fun acc e => dictInsert acc (key e) (val e)) m).map Prod.fst
      = (items.map key).foldl (fun a x => if x ∈ a then a else a ++ [x]) (m.map Prod.fst) := by
  induction items generalizing m with
  | nil => rfl
  | cons e rest ih =>
    rw [List.foldl_cons, ih, List.map_cons, List.foldl_cons, keys_dictInsert]

/-! ### `MultipleAlleleDataset` (mhcflurry/dataset.py, lines 130–163)

The only attribute `__init__` sets is `single_allele_datasets`.  The class
never inspects its values, so they stay a type parameter. -/

/-- A constructed `MultipleAlleleDataset`. -/
structure MultipleAlleleDataset (α : Type) where
  single_allele_datasets : List (String × α)

/-- `MultipleAlleleDataset.__init__` (lines 134–144): the dict
comprehension `{normalize_allele_name(k): v for (k, v) in
single_allele_datasets.items()}`.  A collision of normalized keys is not
detected: the later entry silently overwrites the earlier one's value, as
in any Python dict comprehension. -/
def multipleAlleleDataset_init {α : Type} (single_allele_datasets : List (String × α)) :
    MultipleAlleleDataset α :=
  ⟨single_allele_datasets.foldl
    (fun m e => dictInsert m (normalize_allele_name e.1) e.2) []⟩

/-- `MultipleAlleleDataset.allele_names` (lines 147–148).  The body is
`return list(sorted(single_allele_datasets.keys()))`, but the bare name
`single_allele_datasets` (the parameter of `__init__`, not
`self.single_allele_datasets`) is undefined in the method's scope, so the
call raises `NameError` before anything is sorted. -/
def multipleAlleleDataset_allele_names {α : Type} (_d : MultipleAlleleDataset α) :
    Except PyError (List String) :=
  Except.error PyError.nameError

/-- `MultipleAlleleDataset.__getitem__` (lines 150–156): normalizes the
requested allele name, then looks it up in the stored dict; a missing
(normalized) key raises `KeyError`. -/
def multipleAlleleDataset_getitem {α : Type} (d : MultipleAlleleDataset α)
    (allele_name : String) : Except PyError α :=
  match dictLookup d.single_allele_datasets (normalize_allele_name allele_name) with
  | some v => Except.ok v
  | none => Except.error PyError.keyError

/-- C6 (counterexample): the two raw spellings `"hla-a*02:01"` and
`"HLA-A0201"` normalize to the same allele name, yet construction does not
fail: it returns a dataset holding only the second entry, silently
dropping the first.  (The values 1 and 2 stand for two distinct
single-allele datasets.) -/
theorem mad_init_collision_silent_cex :
    multipleAlleleDataset_init [("hla-a*02:01", (1 : ℕ)), ("HLA-A0201", 2)]
      = ⟨[("HLA-A0201", 2)]⟩ := by
  rfl

/-- C6 (amended): `__init__` normalizes all keys but raises no collision
error: the stored keys are the normalized input keys in first-occurrence
order, and the value stored under a key is the value of the **last** input
entry whose key normalizes to it — colliding entries earlier in the input
are silently overwritten. -/
theorem mad_init_normalizes_and_keeps_last {α : Type} (items : List (String × α)) (k : String) :
    (multipleAlleleDataset_init items).single_allele_datasets.map Prod.fst
      = firstOccur (items.map (fun e => normalize_allele_name e.1))
    ∧ dictLookup (multipleAlleleDataset_init items).single_allele_datasets k
      = ((items.filter (fun e => normalize_allele_name e.1 == k)).map Prod.snd).getLast? := by
  constructor
  · unfold multipleAlleleDataset_init
    rw [keys_foldl_dictInsert (fun e => normalize_allele_name e.1) Prod.snd items []]
    rw [List.map_nil, foldl_insertNew_eq_firstOccur, List.nil_append]
    congr 1
    exact List.filter_eq_self.2 (fun a _ => by simp)
  · unfold multipleAlleleDataset_init
    rw [dictLookup_foldl (fun e => normalize_allele_name e.1) Prod.snd items [] k]
    cases h : ((items.filter (fun e => normalize_allele_name e.1 == k)).map Prod.snd).getLast? <;>
      simp [h, dictLookup_nil]

/-- C8 (code bug): `allele_names` raises `NameError` on every dataset —
here evaluated on a dataset concretely built by `__init__` — instead of
returning the sorted list of normalized allele names, because the method
body omits `self.` before `single_allele_datasets`. -/
theorem mad_allele_names_name_error :
    multipleAlleleDataset_allele_names
        (multipleAlleleDataset_init [("hla-a*02:01", (1 : ℕ)), ("HLA-B*07:02", 2)])
      = Except.error PyError.nameError := by
  rfl

/-- C10: `__getitem__` normalizes its argument before the lookup, so
`d[s]` and `d[normalize_allele_name(s)]` agree (normalization is
idempotent); the lookup returns exactly the dataset stored under the
normalized name and raises `KeyError` precisely when the normalized name
is absent. -/
theorem mad_getitem_normalizes {α : Type} (d : MultipleAlleleDataset α) (s : String) :
    multipleAlleleDataset_getitem d s
      = multipleAlleleDataset_getitem d (normalize_allele_name s)
    ∧ (∀ v : α, multipleAlleleDataset_getitem d s = Except.ok v ↔
        dictLookup d.single_allele_datasets (normalize_allele_name s) = some v)
    ∧ (multipleAlleleDataset_getitem d s = Except.error PyError.keyError ↔
        dictLookup d.single_allele_datasets (normalize_allele_name s) = none) := by
  refine ⟨?_, ?_, ?_⟩
  · unfold multipleAlleleDataset_getitem
    rw [normalize_allele_name_idem]
  · intro v
    unfold multipleAlleleDataset_getitem
    cases h : dictLookup d.single_allele_datasets (normalize_allele_name s) <;> simp [h]
  · unfold multipleAlleleDataset_getitem
    cases h : dictLookup d.single_allele_datasets (normalize_allele_name s) <;> simp [h]

/-! ### `SingleAlleleDataset.__init__` (mhcflurry/dataset.py, lines 58–105)

Python instance attributes come into existence only when assigned, so the
partially constructed object is a record of `Option` fields; reading an
unset attribute raises `AttributeError`.  The IC50 values are opaque to
the statements the constructor actually reaches, so they are a type
parameter. -/

/-- The attributes of a (partially) constructed `SingleAlleleDataset`. -/
structure SADState (α : Type) where
  allele_name : Option String := none
  max_ic50 : Option ℚ := none
  kmer_size : Option ℕ := none
  original_peptides : Option (List String) := none
  original_ic50_values : Option (List α) := none
  peptides : Option (List String) := none
  ic50_values : Option (List α) := none

/-- Reading a Python instance attribute: `AttributeError` when unset. -/
def getattrOpt {β : Type} (a : Option β) : Except PyError β :=
  match a with
  | some v => Except.ok v
  | none => Except.error PyError.attributeError

/-- Modelled from the spec: `prepare_peptides_array` lives in
`mhcflurry/dataset_helpers.py`, which is not under src/; it validates and
returns the peptide array. -/
def prepare_peptides_array (peptides : List String) : List String :=
  peptides

/-- Modelled from the spec: `prepare_ic50_values_array` lives in
`mhcflurry/dataset_helpers.py`, which is not under src/; per spec §4.4 it
checks that the IC50 array has `required_count` entries and fails with a
`ValueError`-class length-mismatch error otherwise. -/
def prepare_ic50_values_array {α : Type} (ic50_values : List α) (required_count : ℕ) :
    Except PyError (List α) :=
  if ic50_values.length = required_count then Except.ok ic50_values
  else Except.error PyError.valueError

/-- `SingleAlleleDataset.__init__` (lines 93–105), statement by statement.
Line 93 sets `allele_name`; line 96 sets `original_peptides`; lines 97–99
call `prepare_ic50_values_array(ic50_values, required_count=len(self.peptides))`
— but `self.peptides` is first assigned only on line 102, so the argument
expression raises `AttributeError` and the combiner call on lines 102–105
(`combine_multiple_peptide_ic50_measurements`, embedded separately below)
is never reached. -/
def singleAlleleDataset_init {α : Type} (allele_name : String) (peptides : List String)
    (ic50_values : List α) (max_ic50 : ℚ) (kmer_size : ℕ) :
    Except PyError (SADState α) := do
  let s : SADState α :=
    { allele_name := some (normalize_allele_name allele_name),
      max_ic50 := some max_ic50,
      kmer_size := some kmer_size }
  let s : SADState α := { s with original_peptides := some (prepare_peptides_array peptides) }
  let selfPeptides ← getattrOpt s.peptides
  let origIc50 ← prepare_ic50_values_array ic50_values selfPeptides.length
  let s : SADState α := { s with original_ic50_values := some origIc50 }
  pure s

/-- C7 (code bug): constructing a `SingleAlleleDataset` — here with the
mismatched-length input `peptides = ["SIINFEKL"]`,
`ic50_values = [100, 200]` — raises `AttributeError`, not the
`ValueError`-class length-mismatch error the spec requires, because
line 99 reads `self.peptides` before any assignment to it; indeed every
construction fails this way, whatever the input. -/
theorem sad_init_attribute_error :
    (∀ (allele_name : String) (peptides : List String) (ic50_values : List ℚ)
        (max_ic50 : ℚ) (kmer_size : ℕ),
      singleAlleleDataset_init allele_name peptides ic50_values max_ic50 kmer_size
        = Except.error PyError.attributeError)
    ∧ singleAlleleDataset_init "HLA-A*02:01" ["SIINFEKL"] [(100 : ℚ), 200] 50000 9
        = Except.error PyError.attributeError := by
  exact ⟨fun a p i m k => rfl, rfl⟩

/-! ### The Measurement Combiner -/

/-- The geometric mean `exp(mean(log(values)))`. -/
noncomputable def geomMean (values : List ℝ) : ℝ :=
  Real.exp ((values.map Real.log).sum / values.length)

/-- Modelled from the spec: `combine_multiple_peptide_ic50_measurements`
lives in `mhcflurry/dataset_helpers.py`, which is not under src/ (the
`SingleAlleleDataset` constructor at dataset.py lines 102–105 calls it).
Spec §4.3: group the parallel (peptide, IC50) rows by peptide, output the
deduplicated peptides in first-occurrence order, give each peptide the
geometric mean of its measured values, and give each output row the
weight `1 / count`, where `count` is the number of raw values combined. -/
noncomputable def combine_multiple_peptide_ic50_measurements
    (peptides : List String) (ic50_values : List ℝ) :
    List String × List ℝ × List ℝ :=
  let rows := peptides.zip ic50_values
  let uniq := firstOccur peptides
  (uniq,
   uniq.map (fun p => geomMean ((rows.filter (fun r => r.1 == p)).map Prod.snd)),
   uniq.map (fun p => 1 / (((rows.filter (fun r => r.1 == p)).length : ℝ))))

theorem geomMean_pair (a b : ℝ) : geomMean [a, b] = Real.exp ((Real.log a + Real.log b) / 2) := by
  unfold geomMean
  norm_num

theorem geomMean_100_100 : geomMean [100, 100] = 100 := by
  rw [geomMean_pair, show (Real.log 100 + Real.log 100) / 2 = Real.log 100 by ring]
  exact Real.exp_log (by norm_num)

theorem geomMean_100_10000 : geomMean [100, 10000] = 1000 := by
  rw [geomMean_pair]
  have h100 : Real.log 100 = 2 * Real.log 10 := by
    rw [show (100 : ℝ) = 10 ^ (2 : ℕ) by norm_num, Real.log_pow]
    norm_num
  have h10000 : Real.log 10000 = 4 * Real.log 10 := by
    rw [show (10000 : ℝ) = 10 ^ (4 : ℕ) by norm_num, Real.log_pow]
    norm_num
  have h1000 : Real.log 1000 = 3 * Real.log 10 := by
    rw [show (1000 : ℝ) = 10 ^ (3 : ℕ) by norm_num, Real.log_pow]
    norm_num
  rw [h100, h10000,
    show (2 * Real.log 10 + 4 * Real.log 10) / 2 = 3 * Real.log 10 by ring, ← h1000]
  exact Real.exp_log (by norm_num)

/-- C2: the Measurement Combiner called by the `SingleAlleleDataset`
constructor groups the parallel (peptide, IC50) rows by peptide; the
output peptides are the input's distinct peptides in first-occurrence
order (a duplicate-free sublist of the input containing exactly the input
peptides — concretely, `["B", "A", "B"]` dedups to `["B", "A"]`); each
peptide's combined IC50 is the geometric mean `exp(mean(log values))` of
its rows, and its weight is `1 / count`: combining `[100, 100]` yields the
single IC50 `100` with weight `1/2`, and `[100, 10000]` yields `1000`. -/
theorem combine_measurements_spec :
    (∀ (peptides : List String) (ic50_values : List ℝ),
      (combine_multiple_peptide_ic50_measurements peptides ic50_values).1
        = firstOccur peptides
      ∧ (firstOccur peptides).Nodup
      ∧ (∀ p, p ∈ firstOccur peptides ↔ p ∈ peptides)
      ∧ List.Sublist (firstOccur peptides) peptides
      ∧ (combine_multiple_peptide_ic50_measurements peptides ic50_values).2.1
        = (firstOccur peptides).map (fun p =>
            geomMean (((peptides.zip ic50_values).filter (fun r => r.1 == p)).map Prod.snd))
      ∧ (combine_multiple_peptide_ic50_measurements peptides ic50_values).2.2
        = (firstOccur peptides).map (fun p =>
            1 / ((((peptides.zip ic50_values).filter (fun r => r.1 == p)).length : ℝ))))
    ∧ (combine_multiple_peptide_ic50_measurements ["SIINFEKL", "SIINFEKL"] [100, 100]).1
      = ["SIINFEKL"]
    ∧ (combine_multiple_peptide_ic50_measurements ["SIINFEKL", "SIINFEKL"] [100, 100]).2.1
      = [100]
    ∧ (combine_multiple_peptide_ic50_measurements ["SIINFEKL", "SIINFEKL"] [100, 100]).2.2
      = [1 / 2]
    ∧ (combine_multiple_peptide_ic50_measurements ["SIINFEKL", "SIINFEKL"] [100, 10000]).2.1
      = [1000]
    ∧ (combine_multiple_peptide_ic50_measurements ["B", "A", "B"] [1, 2, 3]).1
      = ["B", "A"] := by
  refine ⟨fun peptides ic50_values =>
      ⟨rfl, nodup_firstOccur _, mem_firstOccur _, firstOccur_sublist _, rfl, rfl⟩,
    rfl, ?_, ?_, ?_, rfl⟩
  · rw [show (combine_multiple_peptide_ic50_measurements ["SIINFEKL", "SIINFEKL"] [100, 100]).2.1
        = [geomMean [100, 100]] from rfl, geomMean_100_100]
  · rw [show (combine_multiple_peptide_ic50_measurements ["SIINFEKL", "SIINFEKL"] [100, 100]).2.2
        = [1 / ((2 : ℕ) : ℝ)] from rfl]
    norm_num
  · rw [show (combine_multiple_peptide_ic50_measurements ["SIINFEKL", "SIINFEKL"] [100, 10000]).2.1
        = [geomMean [100, 10000]] from rfl, geomMean_100_10000]

/-! ### `score_predictions` (experiments/training_helpers.py, lines 97–105) -/

/-- Modelled from the spec: `roc_auc_score` is an external collaborator
(`sklearn.metrics`).  It computes the area under the ROC curve (the
Mann–Whitney statistic of positive against negative scores) and — as the
spec records, "fails ... if truth is all one class" — raises `ValueError`
when `y_true` contains only one class. -/
noncomputable def roc_auc_score (true_label : List Bool) (scores : List ℝ) :
    Except PyError ℝ :=
  if true_label.contains true && true_label.contains false then
    let pos := ((true_label.zip scores).filter (fun e => e.1)).map Prod.snd
    let neg := ((true_label.zip scores).filter (fun e => !e.1)).map Prod.snd
    Except.ok ((pos.map (fun p =>
        (neg.map (fun n => if p > n then (1 : ℝ) else if p = n then 1 / 2 else 0)).sum)).sum
      / (pos.length * neg.length))
  else Except.error PyError.valueError

/-- `score_predictions` from experiments/training_helpers.py,
lines 97–105: the AUC is computed first (line 99); then predictions are
inverted to IC50s, thresholded at 500 nM into labels, and accuracy (mean
agreement) and F1 are computed.  Returns `(accuracy, auc, f1)`. -/
noncomputable def score_predictions (predicted_log_ic50 : List ℝ) (true_label : List Bool)
    (max_ic50 : ℝ) : Except PyError (ℝ × ℝ × ℚ) := do
  let auc ← roc_auc_score true_label predicted_log_ic50
  let ic50_pred_values := predicted_log_ic50.map (ic50_pred max_ic50)
  let label_pred := ic50_pred_values.map (fun v => if v ≤ 500 then true else false)
  let same_mask := (true_label.zip label_pred).map (fun e => e.1 == e.2)
  let accuracy : ℝ := ((same_mask.filter (fun b => b)).length : ℝ) / same_mask.length
  let f1 := f1_score true_label label_pred
  pure (accuracy, auc, f1)

/-- C5 (counterexample): on the all-one-class truth `[true, true]` (with
predictions `[1/2, 3/4]` and `max_ic50 = 50000`), `score_predictions` does
not return a sentinel value: the `ValueError` raised by `roc_auc_score`
propagates and the call fails. -/
theorem score_predictions_single_class_cex :
    score_predictions [1 / 2, 3 / 4] [true, true] 50000
      = Except.error PyError.valueError := by
  rfl

/-- C5 (amended): whenever the truth labels are all one class — all
`True` or all `False` — `score_predictions` raises: the `ValueError` from
`roc_auc_score` propagates to the caller uncaught; no sentinel AUC value
is reported. -/
theorem score_predictions_single_class_error (predicted_log_ic50 : List ℝ)
    (true_label : List Bool) (max_ic50 : ℝ)
    (hone : (∀ b ∈ true_label, b = true) ∨ (∀ b ∈ true_label, b = false)) :
    score_predictions predicted_log_ic50 true_label max_ic50
      = Except.error PyError.valueError := by
  unfold score_predictions roc_auc_score
  rcases hone with hall | hall
  · have hmem : false ∉ true_label := fun hf => by simpa using hall false hf
    have hc : true_label.contains false = false := by
      cases h : true_label.contains false with
      | false => rfl
      | true => exact absurd (List.elem_iff.1 h) hmem
    rw [hc, Bool.and_false]
    rfl
  · have hmem : true ∉ true_label := fun hf => by simpa using hall true hf
    have hc : true_label.contains true = false := by
      cases h : true_label.contains true with
      | false => rfl
      | true => exact absurd (List.elem_iff.1 h) hmem
    rw [hc, Bool.false_and]
    rfl

/-- Witness for C5's amended theorem at the all-`True` truth `[true]` and
at the all-`False` truth `[false]`. -/
theorem score_predictions_single_class_error_witness :
    score_predictions [(1 : ℝ) / 2] [true] 2 = Except.error PyError.valueError
    ∧ score_predictions [(1 : ℝ) / 2] [false] 2 = Except.error PyError.valueError :=
  ⟨score_predictions_single_class_error [1 / 2] [true] 2 (Or.inl (by simp)),
   score_predictions_single_class_error [1 / 2] [false] 2 (Or.inr (by simp))⟩

/-! ### `encode_allele_datasets` (experiments/training_helpers.py, lines 50–82)

The function iterates over `allele_datasets.items()` — the input mapping's
own iteration order — normalizes each allele name, encodes the dataset,
and fills three `OrderedDict`s keyed by the normalized name. -/

/-- `encode_allele_datasets`: returns the three ordered mappings
(allele → X, allele → Y_log_ic50, allele → ic50). -/
noncomputable def encode_allele_datasets (allele_datasets : List (String × AlleleData))
    (max_ic50 : ℝ) (binary_encoding : Bool) :
    List (String × XEnc) × List (String × List ℝ) × List (String × List ℝ) :=
  allele_datasets.foldl
    (fun acc e =>
      let allele_name := normalize_allele_name e.1
      let r := encode_allele_dataset e.2 max_ic50 binary_encoding
      (dictInsert acc.1 allele_name r.1,
       dictInsert acc.2.1 allele_name r.2.1,
       dictInsert acc.2.2 allele_name r.2.2))
    ([], [], [])

theorem encode_fold_split (m : ℝ) (be : Bool) (ds : List (String × AlleleData))
    (a : List (String × XEnc)) (b : List (String × List ℝ)) (c : List (String × List ℝ)) :
    ds.foldl
      (fun acc e =>
        (dictInsert acc.1 (normalize_allele_name e.1) (encode_allele_dataset e.2 m be).1,
         dictInsert acc.2.1 (normalize_allele_name e.1) (encode_allele_dataset e.2 m be).2.1,
         dictInsert acc.2.2 (normalize_allele_name e.1) (encode_allele_dataset e.2 m be).2.2))
      (a, b, c)
      = (ds.foldl (fun acc e =>
            dictInsert acc (normalize_allele_name e.1) (encode_allele_dataset e.2 m be).1) a,
         ds.foldl (fun acc e =>
            dictInsert acc (normalize_allele_name e.1) (encode_allele_dataset e.2 m be).2.1) b,
         ds.foldl (fun acc e =>
            dictInsert acc (normalize_allele_name e.1) (encode_allele_dataset e.2 m be).2.2) c) := by
  induction ds generalizing a b c with
  | nil => rfl
  | cons e rest ih =>
    simp only [List.foldl_cons]
    exact ih _ _ _

theorem keys_dictFold_firstOccur {α β : Type} (key : β → String) (val : β → α)
    (items : List β) :
    ((items.foldl (fun acc e => dictInsert acc (key e) (val e)) []).map Prod.fst)
      = firstOccur (items.map key) := by
  rw [keys_foldl_dictInsert key val items [], List.map_nil,
    foldl_insertNew_eq_firstOccur, List.nil_append]
  congr 1
  exact List.filter_eq_self.2 (fun a _ => by simp)

theorem dictLookup_dictFold_getLast {α β : Type} (key : β → String) (val : β → α)
    (items : List β) (k : String) :
    dictLookup (items.foldl (fun acc e => dictInsert acc (key e) (val e)) []) k
      = ((items.filter (fun e => key e == k)).map val).getLast? := by
  rw [dictLookup_foldl key val items [] k]
  cases h : ((items.filter (fun e => key e == k)).map val).getLast? <;>
    simp [h, dictLookup_nil]

/-- C9 (counterexample): with the input mapping listing HLA-B0702 before
HLA-A0201, all three output mappings of `encode_allele_datasets` keep the
input's iteration order `["HLA-B0702", "HLA-A0201"]`, which is not the
alphabetically sorted order that `allele_names()` is specified to
produce. -/
theorem encode_allele_datasets_order_cex :
    ((encode_allele_datasets [("HLA-B0702", ⟨[], []⟩), ("HLA-A0201", ⟨[], []⟩)]
        50000 false).1.map Prod.fst = ["HLA-B0702", "HLA-A0201"])
    ∧ ¬ List.Sorted (· ≤ ·) ["HLA-B0702", "HLA-A0201"] := by
  constructor
  · rfl
  · intro hs
    have h := (List.sorted_cons.1 hs).1 "HLA-A0201" (by simp)
    rw [String.le_iff_toList_le] at h
    revert h
    decide

/-- C9 (amended): `encode_allele_datasets` returns three ordered mappings
(allele → X, allele → Y, allele → ic50) built by calling
`encode_allele_dataset` on each allele's dataset; all three share the same
key order, namely the normalized input keys in the input mapping's own
iteration (first-occurrence) order — not `allele_names()`'s sorted order —
and the value under each key comes from encoding the last input entry
whose normalized name equals that key. -/
theorem encode_allele_datasets_order_and_values (ds : List (String × AlleleData))
    (m : ℝ) (be : Bool) (k : String) :
    ((encode_allele_datasets ds m be).1.map Prod.fst
        = firstOccur (ds.map (fun e => normalize_allele_name e.1))
      ∧ (encode_allele_datasets ds m be).2.1.map Prod.fst
        = firstOccur (ds.map (fun e => normalize_allele_name e.1))
      ∧ (encode_allele_datasets ds m be).2.2.map Prod.fst
        = firstOccur (ds.map (fun e => normalize_allele_name e.1)))
    ∧ (dictLookup (encode_allele_datasets ds m be).1 k
        = ((ds.filter (fun e => normalize_allele_name e.1 == k)).map
            (fun e => (encode_allele_dataset e.2 m be).1)).getLast?
      ∧ dictLookup (encode_allele_datasets ds m be).2.1 k
        = ((ds.filter (fun e => normalize_allele_name e.1 == k)).map
            (fun e => (encode_allele_dataset e.2 m be).2.1)).getLast?
      ∧ dictLookup (encode_allele_datasets ds m be).2.2 k
        = ((ds.filter (fun e => normalize_allele_name e.1 == k)).map
            (fun e => (encode_allele_dataset e.2 m be).2.2)).getLast?) := by
  have hsplit : encode_allele_datasets ds m be
      = (ds.foldl (fun acc e =>
            dictInsert acc (normalize_allele_name e.1) (encode_allele_dataset e.2 m be).1) [],
         ds.foldl (fun acc e =>
            dictInsert acc (normalize_allele_name e.1) (encode_allele_dataset e.2 m be).2.1) [],
         ds.foldl (fun acc e =>
            dictInsert acc (normalize_allele_name e.1) (encode_allele_dataset e.2 m be).2.2) []) :=
    encode_fold_split m be ds [] [] []
  rw [hsplit]
  exact ⟨⟨keys_dictFold_firstOccur _ _ ds, keys_dictFold_firstOccur _ _ ds,
      keys_dictFold_firstOccur _ _ ds⟩,
    dictLookup_dictFold_getLast _ _ ds k, dictLookup_dictFold_getLast _ _ ds k,
    dictLookup_dictFold_getLast _ _ ds k⟩
